import Mathlib

/-!
Verification of the CineVault `insert_setup.py` script.

The script reads `web/index.html`, computes
`content.replace(marker, setup_html + marker, 1)` — i.e. it replaces the
first occurrence of the hard-coded `marker` string by the hard-coded
`setup_html` block followed by the marker, which splices the block in
immediately before the first occurrence of the marker — writes the result
back to the same path, and prints a success message.

The embedding works on `List Char` (Python `str` is a character sequence):
`replaceFirst` mirrors Python `str.replace(old, new, 1)`, the literals
`marker` and `setup_html` are transcribed verbatim from the script, and
`runProgram` models the whole process over a small world (file content +
readability/writability), with the Python runtime's behaviour on an
uncaught `OSError` (non-zero exit status, diagnostic on standard error).
-/

set_option maxRecDepth 40000

/-- The hard-coded marker string (line 5 of `insert_setup.py`). -/
def marker : List Char :=
  String.toList "    <!-- Login Modal (standard) -->"

/-- Line 7 of the `setup_html` literal in `insert_setup.py`. -/
def line07 : List Char := String.toList "    <!-- Setup Wizard (first run) -->\n"

/-- Line 8 of the `setup_html` literal in `insert_setup.py`. -/
def line08 : List Char := String.toList "    <div class=\"setup-overlay\" id=\"setupOverlay\">\n"

/-- Line 9 of the `setup_html` literal in `insert_setup.py`. -/
def line09 : List Char := String.toList "        <div class=\"setup-card\">\n"

/-- Line 10 of the `setup_html` literal in `insert_setup.py`. -/
def line10 : List Char := String.toList "            <div class=\"setup-logo\">CineVault Setup</div>\n"

/-- Line 11 of the `setup_html` literal in `insert_setup.py`. -/
def line11 : List Char := String.toList "            <div class=\"setup-subtitle\">Create your admin account to get started</div>\n"

/-- Line 12 of the `setup_html` literal in `insert_setup.py`. -/
def line12 : List Char := String.toList "            <div id=\"setupMessage\"></div>\n"

/-- Line 13 of the `setup_html` literal in `insert_setup.py`. -/
def line13 : List Char := String.toList "            <form id=\"setupForm\">\n"

/-- Line 14 of the `setup_html` literal in `insert_setup.py`. -/
def line14 : List Char := String.toList "                <div class=\"form-group\">\n"

/-- Line 15 of the `setup_html` literal in `insert_setup.py`. -/
def line15 : List Char := String.toList "                    <label>Username</label>\n"

/-- Line 16 of the `setup_html` literal in `insert_setup.py`. -/
def line16 : List Char := String.toList "                    <input type=\"text\" id=\"setupUsername\" required autocomplete=\"username\">\n"

/-- Line 17 of the `setup_html` literal in `insert_setup.py`. -/
def line17 : List Char := String.toList "                </div>\n"

/-- Line 18 of the `setup_html` literal in `insert_setup.py`. -/
def line18 : List Char := String.toList "                <div class=\"setup-row\">\n"

/-- Line 19 of the `setup_html` literal in `insert_setup.py`. -/
def line19 : List Char := String.toList "                    <div class=\"form-group\">\n"

/-- Line 20 of the `setup_html` literal in `insert_setup.py`. -/
def line20 : List Char := String.toList "                        <label>First Name</label>\n"

/-- Line 21 of the `setup_html` literal in `insert_setup.py`. -/
def line21 : List Char := String.toList "                        <input type=\"text\" id=\"setupFirstName\" required>\n"

/-- Line 22 of the `setup_html` literal in `insert_setup.py`. -/
def line22 : List Char := String.toList "                    </div>\n"

/-- Line 23 of the `setup_html` literal in `insert_setup.py`. -/
def line23 : List Char := String.toList "                    <div class=\"form-group\">\n"

/-- Line 24 of the `setup_html` literal in `insert_setup.py`. -/
def line24 : List Char := String.toList "                        <label>Last Name</label>\n"

/-- Line 25 of the `setup_html` literal in `insert_setup.py`. -/
def line25 : List Char := String.toList "                        <input type=\"text\" id=\"setupLastName\" required>\n"

/-- Line 26 of the `setup_html` literal in `insert_setup.py`. -/
def line26 : List Char := String.toList "                    </div>\n"

/-- Line 27 of the `setup_html` literal in `insert_setup.py`. -/
def line27 : List Char := String.toList "                </div>\n"

/-- Line 28 of the `setup_html` literal in `insert_setup.py`. -/
def line28 : List Char := String.toList "                <div class=\"form-group\">\n"

/-- Line 29 of the `setup_html` literal in `insert_setup.py`. -/
def line29 : List Char := String.toList "                    <label>Email</label>\n"

/-- Line 30 of the `setup_html` literal in `insert_setup.py`. -/
def line30 : List Char := String.toList "                    <input type=\"email\" id=\"setupEmail\" required autocomplete=\"email\">\n"

/-- Line 31 of the `setup_html` literal in `insert_setup.py`. -/
def line31 : List Char := String.toList "                </div>\n"

/-- Line 32 of the `setup_html` literal in `insert_setup.py`. -/
def line32 : List Char := String.toList "                <div class=\"form-group\">\n"

/-- Line 33 of the `setup_html` literal in `insert_setup.py`. -/
def line33 : List Char := String.toList "                    <label>Password</label>\n"

/-- Line 34 of the `setup_html` literal in `insert_setup.py`. -/
def line34 : List Char := String.toList "                    <input type=\"password\" id=\"setupPassword\" required autocomplete=\"new-password\">\n"

/-- Line 35 of the `setup_html` literal in `insert_setup.py`. -/
def line35 : List Char := String.toList "                </div>\n"

/-- Line 36 of the `setup_html` literal in `insert_setup.py`. -/
def line36 : List Char := String.toList "                <div class=\"form-group\">\n"

/-- Line 37 of the `setup_html` literal in `insert_setup.py`. -/
def line37 : List Char := String.toList "                    <label>PIN (for fast login)</label>\n"

/-- Line 38 of the `setup_html` literal in `insert_setup.py`. -/
def line38 : List Char := String.toList "                    <input type=\"text\" id=\"setupPin\" inputmode=\"numeric\" maxlength=\"10\" autocomplete=\"off\" placeholder=\"4-digit PIN\">\n"

/-- Line 39 of the `setup_html` literal in `insert_setup.py`. -/
def line39 : List Char := String.toList "                    <div class=\"setup-pin-note\">Numeric only. Used for quick sign-in on shared devices.</div>\n"

/-- Line 40 of the `setup_html` literal in `insert_setup.py`. -/
def line40 : List Char := String.toList "                </div>\n"

/-- Line 41 of the `setup_html` literal in `insert_setup.py`. -/
def line41 : List Char := String.toList "                <button type=\"submit\" class=\"btn-primary\" style=\"width:100%;margin-top:16px;\">Create Admin Account</button>\n"

/-- Line 42 of the `setup_html` literal in `insert_setup.py`. -/
def line42 : List Char := String.toList "            </form>\n"

/-- Line 43 of the `setup_html` literal in `insert_setup.py`. -/
def line43 : List Char := String.toList "        </div>\n"

/-- Line 44 of the `setup_html` literal in `insert_setup.py`. -/
def line44 : List Char := String.toList "    </div>\n"

/-- Line 45 of the `setup_html` literal in `insert_setup.py`. -/
def line45 : List Char := String.toList "\n"

/-- The hard-coded insertion block (the triple-quoted literal on lines 7-46
of `insert_setup.py`): the concatenation, in order, of its lines. -/
def setup_html : List Char :=
  line07 ++ (
  line08 ++ (
  line09 ++ (
  line10 ++ (
  line11 ++ (
  line12 ++ (
  line13 ++ (
  line14 ++ (
  line15 ++ (
  line16 ++ (
  line17 ++ (
  line18 ++ (
  line19 ++ (
  line20 ++ (
  line21 ++ (
  line22 ++ (
  line23 ++ (
  line24 ++ (
  line25 ++ (
  line26 ++ (
  line27 ++ (
  line28 ++ (
  line29 ++ (
  line30 ++ (
  line31 ++ (
  line32 ++ (
  line33 ++ (
  line34 ++ (
  line35 ++ (
  line36 ++ (
  line37 ++ (
  line38 ++ (
  line39 ++ (
  line40 ++ (
  line41 ++ (
  line42 ++ (
  line43 ++ (
  line44 ++ (
  line45))))))))))))))))))))))))))))))))))))))

/-- Embedding of Python `s.replace(old, new, 1)`: replace the first
occurrence of `old` in `s` by `new`; if `old` does not occur, return `s`
unchanged.  Python treats the empty `old` as occurring at position 0, so
for `old = []` the result is `new ++ s`. -/
def replaceFirst : List Char → List Char → List Char → List Char
  | [], old, new => if old = [] then new else []
  | c :: rest, old, new =>
    if old.isPrefixOf (c :: rest) then new ++ (c :: rest).drop old.length
    else c :: replaceFirst rest old new

/-- Number of positions of `s` (including the end position) at which `m`
occurs as a contiguous substring; occurrences may overlap. -/
def countMatches (m : List Char) : List Char → Nat
  | [] => if m = [] then 1 else 0
  | c :: rest => (if m.isPrefixOf (c :: rest) then 1 else 0) + countMatches m rest

/-- Number of positions strictly inside `x` at which `m` occurs as a
substring of `x ++ y` (the occurrence may extend into `y`). -/
def countMatchesFrom (m : List Char) : List Char → List Char → Nat
  | [], _ => 0
  | c :: rest, y =>
    (if m.isPrefixOf (c :: rest ++ y) then 1 else 0) + countMatchesFrom m rest y

/-- The content transformation performed by line 48 of the script:
`content.replace(marker, setup_html + marker, 1)`. -/
def insertSetup (content : List Char) : List Char :=
  replaceFirst content marker (setup_html ++ marker)

/-- The state of the world the script interacts with: the content of
`web/index.html` and whether that file can be opened for reading and for
writing. -/
structure World where
  fileContent : List Char
  readable : Bool
  writable : Bool

/-- Observable outcome of one run of the script: the resulting on-disk
content of `web/index.html`, the process exit status, and what was printed
on standard output and standard error. -/
structure Outcome where
  fileContent : List Char
  exitCode : Nat
  stdoutMsg : List Char
  stderrMsg : List Char
deriving DecidableEq

/-- The success message printed by line 53 of the script. -/
def successMsg : List Char :=
  String.toList "Setup wizard HTML inserted successfully"

/-- Diagnostic the Python runtime prints on standard error when
`open(.., r)` raises (file missing or unreadable): an uncaught traceback
naming the path.  Abstracted to the final exception line. -/
def readErrMsg : List Char :=
  String.toList "OSError: cannot open web/index.html for reading"

/-- Diagnostic the Python runtime prints on standard error when
`open(.., w)` raises (file not writable): an uncaught traceback naming the
path.  Abstracted to the final exception line. -/
def writeErrMsg : List Char :=
  String.toList "OSError: cannot open web/index.html for writing"

/-- One run of the whole script.  Reading happens first (lines 2–3); an
unreadable file raises before anything else, leaving the file untouched.
Opening for writing (line 50) raises when the file is not writable, again
before the content is replaced on disk.  On success the new content is
written and the success message printed; a Python process that raises an
uncaught exception exits with a non-zero status and a traceback on
standard error, and a process that runs to completion exits with 0. -/
def runProgram (w : World) : Outcome :=
  if w.readable then
    if w.writable then
      { fileContent := insertSetup w.fileContent
        exitCode := 0
        stdoutMsg := successMsg
        stderrMsg := [] }
    else
      { fileContent := w.fileContent
        exitCode := 1
        stdoutMsg := []
        stderrMsg := writeErrMsg }
  else
    { fileContent := w.fileContent
      exitCode := 1
      stdoutMsg := []
      stderrMsg := readErrMsg }

/-! ### Bridging lemmas between the boolean scanner primitives and `<+:` -/

/-- `isPrefixOf` agrees with the `<+:` relation on `List Char`. -/
theorem ipo_iff {l t : List Char} : l.isPrefixOf t = true ↔ l <+: t :=
  List.isPrefixOf_iff_prefix

/-- Any list is a `<+:` of itself followed by anything. -/
theorem pref_append (l z : List Char) : l <+: l ++ z :=
  List.prefix_append l z

/-- `take` produces a `<+:` of the original list. -/
theorem take_pref (n : Nat) (l : List Char) : l.take n <+: l :=
  List.take_prefix n l

/-- Being a `<+:` is the same as being the `take` of one's own length. -/
theorem pref_iff_take {l t : List Char} : l <+: t ↔ l = t.take l.length :=
  List.prefix_iff_eq_take

/-- A non-empty list is not `isPrefixOf` the empty list. -/
theorem ipo_nil {m : List Char} (hm : m ≠ []) : m.isPrefixOf ([] : List Char) = false := by
  match m, hm with
  | a :: m', _ => rfl

/-- Taking at most the length of the left part of an append ignores the right part. -/
theorem take_append_le {x y : List Char} {n : Nat} (h : n ≤ x.length) :
    (x ++ y).take n = x.take n := by
  rw [List.take_append_eq_append_take, Nat.sub_eq_zero_of_le h, List.take_zero,
    List.append_nil]

/-- For a candidate no longer than `t`, being a `<+:` of `t ++ z` is being a
`<+:` of `t`. -/
theorem pref_append_iff {l t z : List Char} (h : l.length ≤ t.length) :
    l <+: t ++ z ↔ l <+: t := by
  constructor
  · intro hp
    have he : l = (t ++ z).take l.length := pref_iff_take.mp hp
    rw [take_append_le h] at he
    rw [he]
    exact take_pref l.length t
  · intro hp
    exact hp.trans (pref_append t z)

/-! ### Counting lemmas -/

/-- Splitting an occurrence count at an append boundary. -/
theorem count_append (m : List Char) : ∀ (x y : List Char),
    countMatches m (x ++ y) = countMatchesFrom m x y + countMatches m y
  | [], y => by simp [countMatchesFrom]
  | c :: rest, y => by
    rw [List.cons_append, countMatches, countMatchesFrom, count_append m rest y,
      Nat.add_assoc]
    simp [List.cons_append]

/-- Reassociating the split position argument of `countMatchesFrom`. -/
theorem countMatchesFrom_append (m : List Char) : ∀ (x y z : List Char),
    countMatchesFrom m (x ++ y) z = countMatchesFrom m x (y ++ z) + countMatchesFrom m y z
  | [], y, z => by simp [countMatchesFrom]
  | c :: rest, y, z => by
    rw [List.cons_append, countMatchesFrom, countMatchesFrom,
      countMatchesFrom_append m rest y z, Nat.add_assoc]
    simp [List.cons_append, List.append_assoc]

/-- If no occurrence of `m` starts inside `x` and none starts inside `y`, none
starts inside `x ++ y`; stated through the counters for direct use on the
chunked block literal. -/
theorem cm_zero_append {m x y : List Char} (h1 : countMatchesFrom m x y = 0)
    (h2 : countMatches m y = 0) : countMatches m (x ++ y) = 0 := by
  rw [count_append, h1, h2]

/-- `countMatchesFrom m x y = 0` says exactly that no occurrence of `m` in
`x ++ y` starts at a position strictly inside `x`. -/
theorem countMatchesFrom_eq_zero_iff (m : List Char) : ∀ (x y : List Char),
    countMatchesFrom m x y = 0 ↔
      ∀ i, i < x.length → m.isPrefixOf (x.drop i ++ y) = false
  | [], y => by simp [countMatchesFrom]
  | c :: rest, y => by
    rw [countMatchesFrom]
    constructor
    · intro h i hi
      have h1 : m.isPrefixOf (c :: rest ++ y) = false := by
        cases hx : m.isPrefixOf (c :: rest ++ y) with
        | false => rfl
        | true => rw [hx] at h; simp at h
      rw [h1] at h
      simp only [if_neg Bool.false_ne_true, Nat.zero_add] at h
      match i with
      | 0 => exact h1
      | j + 1 =>
        have hj : j < rest.length := by
          simp only [List.length_cons] at hi
          omega
        have := (countMatchesFrom_eq_zero_iff m rest y).mp h j hj
        simpa using this
    · intro h
      have h0 : m.isPrefixOf (c :: rest ++ y) = false := h 0 (Nat.succ_pos _)
      rw [h0]
      simp only [if_neg Bool.false_ne_true, Nat.zero_add]
      exact (countMatchesFrom_eq_zero_iff m rest y).mpr fun j hj => by
        have := h (j + 1) (by simp only [List.length_cons]; omega)
        simpa using this

/-- `countMatches m x = 0` (for non-empty `m`) says that `m` occurs nowhere
in `x`. -/
theorem countMatches_eq_zero_iff (m : List Char) (hm : m ≠ []) : ∀ (x : List Char),
    countMatches m x = 0 ↔ ∀ i, m.isPrefixOf (x.drop i) = false
  | [] => by
    constructor
    · intro _ i
      rw [List.drop_nil]
      exact ipo_nil hm
    · intro _
      rw [countMatches, if_neg hm]
  | c :: rest => by
    rw [countMatches]
    constructor
    · intro h i
      have h1 : m.isPrefixOf (c :: rest) = false := by
        cases hx : m.isPrefixOf (c :: rest) with
        | false => rfl
        | true => rw [hx] at h; simp at h
      rw [h1] at h
      simp only [if_neg Bool.false_ne_true, Nat.zero_add] at h
      match i with
      | 0 => exact h1
      | j + 1 => simpa using (countMatches_eq_zero_iff m hm rest).mp h j
    · intro h
      have h0 : m.isPrefixOf (c :: rest) = false := h 0
      rw [h0]
      simp only [if_neg Bool.false_ne_true, Nat.zero_add]
      exact (countMatches_eq_zero_iff m hm rest).mpr fun j => by
        have := h (j + 1)
        simpa using this

/-! ### Facts about the concrete literals -/

/-- The marker is non-empty. -/
theorem marker_ne_nil : marker ≠ [] := by decide

/-- The marker is not longer than the insertion block. -/
theorem marker_len_le : marker.length ≤ setup_html.length := by
  have h1 : marker.length ≤ line07.length := by decide
  simp only [setup_html, List.length_append]
  omega

/-- No strict non-empty tail of the marker is the beginning of the block:
an occurrence of the marker cannot start before the insertion point and
continue into the freshly inserted block. -/
theorem marker_tail_block : ∀ j, j < marker.length → 0 < j →
    (marker.drop j).isPrefixOf setup_html = false := by decide

/-- The marker does not overlap itself: no strict non-empty tail of the
marker is an initial segment of the marker. -/
theorem marker_no_overlap : ∀ r, r < marker.length → 0 < r →
    marker.drop r ≠ marker.take (marker.length - r) := by decide

/-- The marker does not occur anywhere in the insertion block, checked
line by line against each remaining tail of the block. -/
theorem marker_count_block : countMatches marker setup_html = 0 := by
  rw [setup_html]
  exact cm_zero_append (by decide)
    (cm_zero_append (by decide)
    (cm_zero_append (by decide)
    (cm_zero_append (by decide)
    (cm_zero_append (by decide)
    (cm_zero_append (by decide)
    (cm_zero_append (by decide)
    (cm_zero_append (by decide)
    (cm_zero_append (by decide)
    (cm_zero_append (by decide)
    (cm_zero_append (by decide)
    (cm_zero_append (by decide)
    (cm_zero_append (by decide)
    (cm_zero_append (by decide)
    (cm_zero_append (by decide)
    (cm_zero_append (by decide)
    (cm_zero_append (by decide)
    (cm_zero_append (by decide)
    (cm_zero_append (by decide)
    (cm_zero_append (by decide)
    (cm_zero_append (by decide)
    (cm_zero_append (by decide)
    (cm_zero_append (by decide)
    (cm_zero_append (by decide)
    (cm_zero_append (by decide)
    (cm_zero_append (by decide)
    (cm_zero_append (by decide)
    (cm_zero_append (by decide)
    (cm_zero_append (by decide)
    (cm_zero_append (by decide)
    (cm_zero_append (by decide)
    (cm_zero_append (by decide)
    (cm_zero_append (by decide)
    (cm_zero_append (by decide)
    (cm_zero_append (by decide)
    (cm_zero_append (by decide)
    (cm_zero_append (by decide)
    (cm_zero_append (by decide)
    ((by decide)))))))))))))))))))))))))))))))))))))))

/-! ### Structure of `replaceFirst` -/

/-- If the pattern occurs nowhere, `replaceFirst` is the identity (the
marker-absent branch of `str.replace`). -/
theorem replaceFirst_of_no_match (m n : List Char) (hm : m ≠ []) :
    ∀ c : List Char, countMatches m c = 0 → replaceFirst c m n = c
  | [], _ => by rw [replaceFirst, if_neg hm]
  | a :: c', h => by
    rw [countMatches] at h
    have h1 : m.isPrefixOf (a :: c') = false := by
      cases hx : m.isPrefixOf (a :: c') with
      | false => rfl
      | true => rw [hx] at h; simp at h
    rw [h1] at h
    simp only [if_neg Bool.false_ne_true, Nat.zero_add] at h
    rw [replaceFirst, if_neg (by rw [h1]; exact Bool.false_ne_true),
      replaceFirst_of_no_match m n hm c' h]

/-- On a content split at the first occurrence of the pattern,
`replaceFirst` substitutes exactly there. -/
theorem replaceFirst_first (m n : List Char) (hm : m ≠ []) :
    ∀ (p s : List Char), countMatchesFrom m p (m ++ s) = 0 →
      replaceFirst (p ++ (m ++ s)) m n = p ++ (n ++ s)
  | [], s, _ => by
    match m, hm with
    | a :: m', _ =>
      rw [List.nil_append, List.nil_append, List.cons_append, replaceFirst]
      have ht : (a :: m').isPrefixOf (a :: (m' ++ s)) = true := by
        rw [← List.cons_append]
        exact ipo_iff.mpr (pref_append _ _)
      rw [if_pos ht, ← List.cons_append, List.drop_left]
  | a :: p', s, h => by
    rw [countMatchesFrom] at h
    have h1 : m.isPrefixOf ((a :: p') ++ (m ++ s)) = false := by
      cases hx : m.isPrefixOf ((a :: p') ++ (m ++ s)) with
      | false => rfl
      | true => rw [hx] at h; simp at h
    rw [h1] at h
    simp only [if_neg Bool.false_ne_true, Nat.zero_add] at h
    simp only [List.cons_append]
    rw [replaceFirst]
    rw [if_neg (by simp only [List.cons_append] at h1; rw [h1]; exact Bool.false_ne_true)]
    rw [replaceFirst_first m n hm p' s h]

/-- Any content with at least one occurrence of the pattern splits at the
first occurrence, and `replaceFirst` substitutes exactly there. -/
theorem replaceFirst_decompose (m n : List Char) (hm : m ≠ []) :
    ∀ c : List Char, 1 ≤ countMatches m c →
      ∃ p s, c = p ++ (m ++ s) ∧ countMatchesFrom m p (m ++ s) = 0 ∧
        replaceFirst c m n = p ++ (n ++ s)
  | [], h => by
    rw [countMatches, if_neg hm] at h
    omega
  | a :: c', h => by
    cases hx : m.isPrefixOf (a :: c') with
    | true =>
      obtain ⟨t, ht⟩ := ipo_iff.mp hx
      refine ⟨[], t, ?_, rfl, ?_⟩
      · rw [List.nil_append, ht]
      · rw [replaceFirst, if_pos hx, List.nil_append]
        congr 1
        rw [← ht, List.drop_left]
    | false =>
      rw [countMatches, hx] at h
      simp only [if_neg Bool.false_ne_true, Nat.zero_add] at h
      obtain ⟨p', s', hc, hfrom, hrf⟩ := replaceFirst_decompose m n hm c' h
      refine ⟨a :: p', s', ?_, ?_, ?_⟩
      · rw [List.cons_append, ← hc]
      · rw [countMatchesFrom]
        have hpre : m.isPrefixOf ((a :: p') ++ (m ++ s')) = false := by
          rw [List.cons_append, ← hc]
          exact hx
        rw [hpre]
        simp only [if_neg Bool.false_ne_true, Nat.zero_add]
        exact hfrom
      · rw [replaceFirst, if_neg (by rw [hx]; exact Bool.false_ne_true), hrf,
          List.cons_append]

/-- A content that starts with the pattern has at least one occurrence. -/
theorem count_self_append (m s : List Char) (hm : m ≠ []) :
    1 ≤ countMatches m (m ++ s) := by
  match m, hm with
  | a :: m', _ =>
    rw [List.cons_append, countMatches]
    have ht : (a :: m').isPrefixOf (a :: (m' ++ s)) = true := by
      rw [← List.cons_append]
      exact ipo_iff.mpr (pref_append _ _)
    rw [ht]
    simp

/-- If no occurrence starts inside `p` even with continuation `y`, then `m`
does not occur in `p` taken alone. -/
theorem count_zero_of_from_zero (m p y : List Char) (hm : m ≠ [])
    (h : countMatchesFrom m p y = 0) : countMatches m p = 0 := by
  rw [countMatches_eq_zero_iff m hm]
  intro i
  rcases Nat.lt_or_ge i p.length with hi | hi
  · cases hx : m.isPrefixOf (p.drop i) with
    | false => rfl
    | true =>
      have hpre : m <+: p.drop i ++ y := (ipo_iff.mp hx).trans (pref_append _ _)
      have hz := (countMatchesFrom_eq_zero_iff m p y).mp h i hi
      rw [ipo_iff.mpr hpre] at hz
      simp at hz
  · rw [List.drop_eq_nil_of_le hi]
    exact ipo_nil hm

/-! ### No new occurrences are created by the insertion -/

/-- Prepending a block `B` (at least as long as `m`, and such that no strict
tail of `m` begins `B`) to the continuation does not create an occurrence of
`m` starting inside `p`, provided none started there before. -/
theorem transfer_zero (m B s : List Char) (_hm : m ≠ []) (hlen : m.length ≤ B.length)
    (htail : ∀ j, j < m.length → 0 < j → (m.drop j).isPrefixOf B = false)
    (p : List Char) (h : countMatchesFrom m p (m ++ s) = 0) :
    countMatchesFrom m p (B ++ (m ++ s)) = 0 := by
  rw [countMatchesFrom_eq_zero_iff]
  intro i hi
  cases hx : m.isPrefixOf (p.drop i ++ (B ++ (m ++ s))) with
  | false => rfl
  | true =>
    exfalso
    have hu : p.drop i ≠ [] := by
      intro he
      rw [List.drop_eq_nil_iff] at he
      omega
    have hp : m <+: p.drop i ++ (B ++ (m ++ s)) := ipo_iff.mp hx
    rcases le_or_lt m.length (p.drop i).length with hcase | hcase
    · have hp1 : m <+: p.drop i := (pref_append_iff hcase).mp hp
      have hp2 : m <+: p.drop i ++ (m ++ s) := hp1.trans (pref_append _ _)
      have hz := (countMatchesFrom_eq_zero_iff m p (m ++ s)).mp h i hi
      rw [ipo_iff.mpr hp2] at hz
      simp at hz
    · have hlen2 : m.length - (p.drop i).length ≤ B.length :=
        Nat.le_trans (Nat.sub_le _ _) hlen
      have he : m = p.drop i ++ B.take (m.length - (p.drop i).length) := by
        have h1 : m = (p.drop i ++ (B ++ (m ++ s))).take m.length := pref_iff_take.mp hp
        rw [List.take_append_eq_append_take,
          List.take_of_length_le (Nat.le_of_lt hcase), take_append_le hlen2] at h1
        exact h1
      have hdrop : m.drop (p.drop i).length = B.take (m.length - (p.drop i).length) := by
        nth_rewrite 1 [he]
        rw [List.drop_left]
      have hb := htail (p.drop i).length hcase (List.length_pos.mpr hu)
      rw [hdrop, ipo_iff.mpr (take_pref _ _)] at hb
      simp at hb

/-- No occurrence of `m` starts inside the block `B` when `m` does not occur
in `B` alone and `m` does not overlap itself — even though the continuation
after `B` starts with `m` itself. -/
theorem block_zero (m B s : List Char) (hm : m ≠ [])
    (hBcount : countMatches m B = 0)
    (hover : ∀ r, r < m.length → 0 < r → m.drop r ≠ m.take (m.length - r)) :
    countMatchesFrom m B (m ++ s) = 0 := by
  rw [countMatchesFrom_eq_zero_iff]
  intro i hi
  cases hx : m.isPrefixOf (B.drop i ++ (m ++ s)) with
  | false => rfl
  | true =>
    exfalso
    have hu : B.drop i ≠ [] := by
      intro he
      rw [List.drop_eq_nil_iff] at he
      omega
    have hp : m <+: B.drop i ++ (m ++ s) := ipo_iff.mp hx
    rcases le_or_lt m.length (B.drop i).length with hcase | hcase
    · have hp1 : m <+: B.drop i := (pref_append_iff hcase).mp hp
      have hz := (countMatches_eq_zero_iff m hm B).mp hBcount i
      rw [ipo_iff.mpr hp1] at hz
      simp at hz
    · have hk : m.length - (B.drop i).length ≤ m.length := Nat.sub_le _ _
      have he : m = B.drop i ++ m.take (m.length - (B.drop i).length) := by
        have h1 : m = (B.drop i ++ (m ++ s)).take m.length := pref_iff_take.mp hp
        rw [List.take_append_eq_append_take,
          List.take_of_length_le (Nat.le_of_lt hcase), take_append_le hk] at h1
        exact h1
      have hdrop : m.drop (B.drop i).length = m.take (m.length - (B.drop i).length) := by
        nth_rewrite 1 [he]
        rw [List.drop_left]
      exact hover (B.drop i).length hcase (List.length_pos.mpr hu) hdrop

/-! ### The insertion, assembled -/

/-- On a content split at the first marker occurrence, `insertSetup` splices
the block immediately before the marker. -/
theorem insertSetup_first (p s : List Char)
    (h : countMatchesFrom marker p (marker ++ s) = 0) :
    insertSetup (p ++ (marker ++ s)) = p ++ (setup_html ++ (marker ++ s)) := by
  rw [insertSetup, replaceFirst_first marker (setup_html ++ marker) marker_ne_nil p s h,
    List.append_assoc]

/-- The number of marker occurrences is invariant under `insertSetup`. -/
theorem insertSetup_count (c : List Char) :
    countMatches marker (insertSetup c) = countMatches marker c := by
  rcases Nat.eq_zero_or_pos (countMatches marker c) with h0 | h1
  · rw [insertSetup,
      replaceFirst_of_no_match marker (setup_html ++ marker) marker_ne_nil c h0, h0]
  · obtain ⟨p, s, hc, hfrom, hrf⟩ :=
      replaceFirst_decompose marker (setup_html ++ marker) marker_ne_nil c h1
    have hR : insertSetup c = p ++ (setup_html ++ (marker ++ s)) := by
      rw [insertSetup, hrf, List.append_assoc]
    have e1 := count_append marker p (setup_html ++ (marker ++ s))
    have e2 := count_append marker setup_html (marker ++ s)
    have e3 := count_append marker p (marker ++ s)
    have t1 := transfer_zero marker setup_html s marker_ne_nil marker_len_le
      marker_tail_block p hfrom
    have t2 := block_zero marker setup_html s marker_ne_nil marker_count_block
      marker_no_overlap
    rw [hR, hc, e1, e2, e3, t1, t2, hfrom]
    omega

/-- When the marker occurs, the insertion grows the content by exactly the
length of the block. -/
theorem insertSetup_len (c : List Char) (h1 : 1 ≤ countMatches marker c) :
    (insertSetup c).length = c.length + setup_html.length := by
  obtain ⟨p, s, hc, hfrom, hrf⟩ :=
    replaceFirst_decompose marker (setup_html ++ marker) marker_ne_nil c h1
  have hR : insertSetup c = p ++ (setup_html ++ (marker ++ s)) := by
    rw [insertSetup, hrf, List.append_assoc]
  rw [hR, hc]
  simp only [List.length_append]
  omega

/-! ### The claims -/

/-- C1: for every file content with exactly one occurrence of the marker, a
successful run of the program transforms the content `p ++ marker ++ s`
(with `p` free of the marker) into `p ++ setup_html ++ marker ++ s`: the
block is spliced in immediately before the marker, which is preserved. -/
theorem claim_C1 (c : List Char) (hone : countMatches marker c = 1) :
    ∃ p s, c = p ++ (marker ++ s) ∧ countMatches marker p = 0 ∧
      (runProgram { fileContent := c, readable := true, writable := true }).fileContent
        = p ++ (setup_html ++ (marker ++ s)) := by
  obtain ⟨p, s, hc, hfrom, hrf⟩ :=
    replaceFirst_decompose marker (setup_html ++ marker) marker_ne_nil c (by omega)
  refine ⟨p, s, hc, count_zero_of_from_zero marker p (marker ++ s) marker_ne_nil hfrom, ?_⟩
  show insertSetup c = p ++ (setup_html ++ (marker ++ s))
  rw [insertSetup, hrf, List.append_assoc]

/-- Concrete one-marker content for the C1 witness. -/
def c1ex : List Char := String.toList "X\n" ++ (marker ++ String.toList "\nY")

/-- C1 witness: a concrete content with exactly one marker occurrence, on
which the theorem applies. -/
theorem claim_C1_witness :
    countMatches marker c1ex = 1 ∧
    (∃ p s, c1ex = p ++ (marker ++ s) ∧ countMatches marker p = 0 ∧
      (runProgram { fileContent := c1ex, readable := true, writable := true }).fileContent
        = p ++ (setup_html ++ (marker ++ s))) :=
  ⟨by decide, claim_C1 c1ex (by decide)⟩

/-- C2: when the marker occurs more than once, exactly one insertion happens,
anchored at the first occurrence: the content splits as `p ++ marker ++ s`
with no occurrence starting inside `p`, the result is
`p ++ setup_html ++ marker ++ s` (so everything from the first marker on —
in particular every later occurrence and the text around it — is kept
verbatim), and the total number of occurrences is unchanged, so no later
occurrence acquired a copy of the block. -/
theorem claim_C2 (c : List Char) (hmany : 2 ≤ countMatches marker c) :
    ∃ p s, c = p ++ (marker ++ s) ∧ countMatchesFrom marker p (marker ++ s) = 0 ∧
      insertSetup c = p ++ (setup_html ++ (marker ++ s)) ∧
      countMatches marker (insertSetup c) = countMatches marker c := by
  obtain ⟨p, s, hc, hfrom, hrf⟩ :=
    replaceFirst_decompose marker (setup_html ++ marker) marker_ne_nil c (by omega)
  exact ⟨p, s, hc, hfrom, by rw [insertSetup, hrf, List.append_assoc],
    insertSetup_count c⟩

/-- Concrete two-marker content for the C2 witness. -/
def c2ex : List Char :=
  String.toList "A" ++ (marker ++ (String.toList "\n" ++ (marker ++ String.toList "B")))

/-- C2 witness: a concrete content with two marker occurrences. -/
theorem claim_C2_witness :
    2 ≤ countMatches marker c2ex ∧
    (∃ p s, c2ex = p ++ (marker ++ s) ∧
      countMatchesFrom marker p (marker ++ s) = 0 ∧
      insertSetup c2ex = p ++ (setup_html ++ (marker ++ s)) ∧
      countMatches marker (insertSetup c2ex) = countMatches marker c2ex) :=
  ⟨by decide, claim_C2 c2ex (by decide)⟩

/-- C3: when the marker does not occur at all, a successful run leaves the
file content unchanged (consistent no-op policy) and still exits 0. -/
theorem claim_C3 (c : List Char) (h : countMatches marker c = 0) :
    (runProgram { fileContent := c, readable := true, writable := true }).fileContent = c ∧
    (runProgram { fileContent := c, readable := true, writable := true }).exitCode = 0 := by
  constructor
  · show insertSetup c = c
    rw [insertSetup,
      replaceFirst_of_no_match marker (setup_html ++ marker) marker_ne_nil c h]
  · rfl

/-- Concrete marker-free content for the C3 witness. -/
def c3ex : List Char := String.toList "no marker here"

/-- C3 witness: a concrete marker-free content. -/
theorem claim_C3_witness :
    countMatches marker c3ex = 0 ∧
    ((runProgram { fileContent := c3ex, readable := true, writable := true }).fileContent
        = c3ex ∧
      (runProgram { fileContent := c3ex, readable := true, writable := true }).exitCode = 0) :=
  ⟨by decide, claim_C3 c3ex (by decide)⟩

/-- C4: the operation is not idempotent.  For every content containing the
marker (and the compiled-in block contains no occurrence of the marker),
running the operation twice splices two consecutive copies of the block
immediately before the first occurrence of the marker. -/
theorem claim_C4 (c : List Char) (h : 1 ≤ countMatches marker c) :
    ∃ p s, c = p ++ (marker ++ s) ∧ countMatchesFrom marker p (marker ++ s) = 0 ∧
      insertSetup (insertSetup c) = p ++ (setup_html ++ (setup_html ++ (marker ++ s))) := by
  obtain ⟨p, s, hc, hfrom, hrf⟩ :=
    replaceFirst_decompose marker (setup_html ++ marker) marker_ne_nil c h
  refine ⟨p, s, hc, hfrom, ?_⟩
  have hR1 : insertSetup c = (p ++ setup_html) ++ (marker ++ s) := by
    rw [insertSetup, hrf, List.append_assoc, List.append_assoc]
  have hfrom2 : countMatchesFrom marker (p ++ setup_html) (marker ++ s) = 0 := by
    rw [countMatchesFrom_append]
    rw [transfer_zero marker setup_html s marker_ne_nil marker_len_le
        marker_tail_block p hfrom,
      block_zero marker setup_html s marker_ne_nil marker_count_block marker_no_overlap]
  rw [hR1, insertSetup_first (p ++ setup_html) s hfrom2, List.append_assoc]

/-- C4 witness: the content consisting of the marker alone. -/
theorem claim_C4_witness :
    1 ≤ countMatches marker marker ∧
    (∃ p s, marker = p ++ (marker ++ s) ∧ countMatchesFrom marker p (marker ++ s) = 0 ∧
      insertSetup (insertSetup marker)
        = p ++ (setup_html ++ (setup_html ++ (marker ++ s)))) :=
  ⟨by decide, claim_C4 marker (by decide)⟩

/-- C5: the operation preserves all bytes other than the inserted block:
removing the block at the known insertion point (immediately before the
first marker occurrence) from the result reproduces the input exactly. -/
theorem claim_C5 (c : List Char) (h : 1 ≤ countMatches marker c) :
    ∃ p s, c = p ++ (marker ++ s) ∧ countMatchesFrom marker p (marker ++ s) = 0 ∧
      (insertSetup c).take p.length
          ++ (insertSetup c).drop (p.length + setup_html.length) = c := by
  obtain ⟨p, s, hc, hfrom, hrf⟩ :=
    replaceFirst_decompose marker (setup_html ++ marker) marker_ne_nil c h
  refine ⟨p, s, hc, hfrom, ?_⟩
  have hR : insertSetup c = p ++ (setup_html ++ (marker ++ s)) := by
    rw [insertSetup, hrf, List.append_assoc]
  have htake : (insertSetup c).take p.length = p := by
    rw [hR, List.take_left]
  have hdrop : (insertSetup c).drop (p.length + setup_html.length) = marker ++ s := by
    rw [hR, ← List.append_assoc, ← List.length_append, List.drop_left]
  rw [htake, hdrop, hc]

/-- C5 witness: the content consisting of the marker alone. -/
theorem claim_C5_witness :
    1 ≤ countMatches marker marker ∧
    (∃ p s, marker = p ++ (marker ++ s) ∧ countMatchesFrom marker p (marker ++ s) = 0 ∧
      (insertSetup marker).take p.length
          ++ (insertSetup marker).drop (p.length + setup_html.length) = marker) :=
  ⟨by decide, claim_C5 marker (by decide)⟩

/-- C6: every normal completion exits with status 0, and every run in which
a filesystem operation (the read or the write) fails terminates with a
non-zero exit status and a non-empty human-readable diagnostic on the
standard error stream. -/
theorem claim_C6 (w : World) :
    (w.readable = true → w.writable = true → (runProgram w).exitCode = 0) ∧
    ((w.readable = false ∨ w.writable = false) →
      (runProgram w).exitCode ≠ 0 ∧ (runProgram w).stderrMsg ≠ []) := by
  rcases w with ⟨c, r, wr⟩
  cases r <;> cases wr <;>
    simp [runProgram, readErrMsg, writeErrMsg]

/-- C6 witness: a run with both filesystem operations available exits 0; a
run with an unreadable file exits non-zero with a diagnostic. -/
theorem claim_C6_witness :
    (runProgram { fileContent := [], readable := true, writable := true }).exitCode = 0 ∧
    (runProgram { fileContent := [], readable := false, writable := true }).exitCode ≠ 0 ∧
    (runProgram { fileContent := [], readable := false, writable := true }).stderrMsg ≠ [] :=
  ⟨(claim_C6 { fileContent := [], readable := true, writable := true }).1 rfl rfl,
    ((claim_C6 { fileContent := [], readable := false, writable := true }).2 (Or.inl rfl)).1,
    ((claim_C6 { fileContent := [], readable := false, writable := true }).2 (Or.inl rfl)).2⟩

/-- C7: when the read succeeds but the file is not writable, the run fails
(non-zero exit, diagnostic on standard error) and the on-disk content is
left unmodified. -/
theorem claim_C7 (w : World) (hr : w.readable = true) (hw : w.writable = false) :
    (runProgram w).exitCode ≠ 0 ∧ (runProgram w).fileContent = w.fileContent ∧
    (runProgram w).stderrMsg ≠ [] := by
  rcases w with ⟨c, r, wr⟩
  cases hr
  cases hw
  refine ⟨Nat.one_ne_zero, rfl, ?_⟩
  show writeErrMsg ≠ []
  decide

/-- C7 witness: a readable, non-writable world. -/
theorem claim_C7_witness :
    (runProgram { fileContent := String.toList "abc", readable := true, writable := false }).exitCode ≠ 0 ∧
    (runProgram { fileContent := String.toList "abc", readable := true, writable := false }).fileContent
      = String.toList "abc" ∧
    (runProgram { fileContent := String.toList "abc", readable := true, writable := false }).stderrMsg ≠ [] :=
  claim_C7 { fileContent := String.toList "abc", readable := true, writable := false } rfl rfl

/-- C8: whenever the read and the write both succeed, the program prints the
success message and exits 0 — even when the marker is absent and no
insertion occurred, in which case the file content is unchanged; success
output therefore does not imply an insertion happened. -/
theorem claim_C8 (w : World) (hr : w.readable = true) (hw : w.writable = true) :
    (runProgram w).exitCode = 0 ∧ (runProgram w).stdoutMsg = successMsg ∧
    (countMatches marker w.fileContent = 0 → (runProgram w).fileContent = w.fileContent) := by
  rcases w with ⟨c, r, wr⟩
  cases hr
  cases hw
  refine ⟨rfl, rfl, fun h0 => ?_⟩
  show insertSetup c = c
  rw [insertSetup,
    replaceFirst_of_no_match marker (setup_html ++ marker) marker_ne_nil c h0]

/-- C8 witness: a successful run on a marker-free content still reports
success although it changed nothing. -/
theorem claim_C8_witness :
    (runProgram { fileContent := String.toList "nothing", readable := true, writable := true }).exitCode = 0 ∧
    (runProgram { fileContent := String.toList "nothing", readable := true, writable := true }).stdoutMsg
      = successMsg ∧
    (runProgram { fileContent := String.toList "nothing", readable := true, writable := true }).fileContent
      = String.toList "nothing" :=
  ⟨(claim_C8 _ rfl rfl).1, (claim_C8 _ rfl rfl).2.1,
    (claim_C8 { fileContent := String.toList "nothing", readable := true, writable := true }
      rfl rfl).2.2 (by decide)⟩

/-- C9: the number of marker occurrences is invariant under the operation
(the hard-coded block contains no occurrence of the hard-coded marker and
the anchor occurrence is preserved), and when the marker occurs the result
is exactly one block-length longer than the input. -/
theorem claim_C9 (c : List Char) :
    countMatches marker (insertSetup c) = countMatches marker c ∧
    (1 ≤ countMatches marker c →
      (insertSetup c).length = c.length + setup_html.length) :=
  ⟨insertSetup_count c, insertSetup_len c⟩

/-- C9 witness: the content consisting of the marker alone, for which the
occurrence count is preserved and the length grows by the block length. -/
theorem claim_C9_witness :
    countMatches marker (insertSetup marker) = countMatches marker marker ∧
    (insertSetup marker).length = marker.length + setup_html.length :=
  ⟨(claim_C9 marker).1, (claim_C9 marker).2 (by decide)⟩

/-- C10: the run is deterministic — two runs on equal worlds produce equal
outcomes — and on a successful run the resulting content is the pure
function `insertSetup` of the input content alone. -/
theorem claim_C10 (w1 w2 : World) (hc : w1.fileContent = w2.fileContent)
    (hr : w1.readable = w2.readable) (hw : w1.writable = w2.writable) :
    runProgram w1 = runProgram w2 ∧
    (w1.readable = true → w1.writable = true →
      (runProgram w1).fileContent = insertSetup w1.fileContent) := by
  rcases w1 with ⟨c1, r1, wr1⟩
  rcases w2 with ⟨c2, r2, wr2⟩
  cases hc
  cases hr
  cases hw
  refine ⟨rfl, fun h1 h2 => ?_⟩
  cases h1
  cases h2
  rfl

/-- C10 witness: two equal concrete worlds. -/
theorem claim_C10_witness :
    runProgram { fileContent := String.toList "m", readable := true, writable := true }
      = runProgram { fileContent := String.toList "m", readable := true, writable := true } ∧
    (runProgram { fileContent := String.toList "m", readable := true, writable := true }).fileContent
      = insertSetup (String.toList "m") :=
  ⟨(claim_C10 _ _ rfl rfl rfl).1,
    (claim_C10 { fileContent := String.toList "m", readable := true, writable := true }
      { fileContent := String.toList "m", readable := true, writable := true }
      rfl rfl rfl).2 rfl rfl⟩
